import Mathlib

/-!
Shallow embedding of `src/ctfd.py`, a script that mirrors a CTFd
platform's challenge set onto a local directory tree.

Pure string manipulation (`sanitize_name`, path joining, URL handling,
README text generation) is embedded directly as executable functions on
`String` / `List Char`.  Network and filesystem effects are modelled by
oracles collected in an `Env` structure; each effectful Python function
becomes a Lean function returning the list of observable events it
performs together with an `Except` value modelling Python exception
propagation (`.error` = an uncaught exception escaping the function).
-/

set_option autoImplicit false

namespace Ctfd

/-- Model of the character class stripped by Python `str.strip()`
(whitespace; restricted to the ASCII whitespace of `Char.isWhitespace`). -/
def pyIsSpace (c : Char) : Bool := c.isWhitespace

/-- One character of the generator inside `sanitize_name`:
`c if c.isalnum() or c in (' ', '-', '_') else '_'`.
Python's Unicode `str.isalnum` is modelled by `Char.isAlphanum`. -/
def keepChar (c : Char) : Char :=
  if c.isAlphanum || c = ' ' || c = '-' || c = '_' then c else '_'

/-- Model of Python `str.strip()`: drop whitespace from both ends. -/
def pyStrip (l : List Char) : List Char :=
  ((l.dropWhile pyIsSpace).reverse.dropWhile pyIsSpace).reverse

/-- One character of `str.replace(" ", "_")` (the pattern is a single
character, so the replacement acts characterwise). -/
def underscoreSpace (c : Char) : Char := if c = ' ' then '_' else c

/-- `sanitize_name` from `src/ctfd.py`:
`"".join(c if c.isalnum() or c in (' ', '-', '_') else '_' for c in name).strip().replace(" ", "_")`. -/
def sanitize_name (l : List Char) : List Char :=
  (pyStrip (l.map keepChar)).map underscoreSpace

/-- `sanitize_name` on `String`. -/
def sanitizeS (s : String) : String := ⟨sanitize_name s.data⟩

/-- Kernel-reducible model of `String.startsWith`. -/
def strStartsWith (s p : String) : Bool := p.data.isPrefixOf s.data

/-- Kernel-reducible model of `String.endsWith`. -/
def strEndsWith (s p : String) : Bool := p.data.isSuffixOf s.data

/-- Model of Python `os.path.join(a, b)` (posixpath, two arguments):
if `b` is absolute it replaces `a`; otherwise `b` is appended,
inserting `/` unless `a` is empty or already ends with `/`. -/
def osPathJoin (a b : String) : String :=
  if strStartsWith b "/" then b
  else if a = "" || strEndsWith a "/" then a ++ b
  else a ++ "/" ++ b

/-- Directory-path normalisation: drop trailing `/` characters, so that
`"cat/"` and `"cat"` denote the same directory. -/
def normDir (s : String) : String :=
  ⟨(s.data.reverse.dropWhile (· = '/')).reverse⟩

/-- Model of Python `url.split('?')[0]`: the part before the first `?`. -/
def pySplitQ (s : String) : String := ⟨s.data.takeWhile (· ≠ '?')⟩

/-- Model of Python `os.path.basename`: the part after the last `/`. -/
def pyBasename (s : String) : String :=
  ⟨(s.data.reverse.takeWhile (· ≠ '/')).reverse⟩

/-- Whether `pat` occurs as a contiguous substring of `s`. -/
def hasSubstr (pat : List Char) : List Char → Bool
  | [] => pat.isEmpty
  | c :: rest => pat.isPrefixOf (c :: rest) || hasSubstr pat rest

/-- Whether a URL string carries a scheme (`scheme:`), per
`urllib.parse`: a non-empty run of scheme characters before a colon. -/
def hasScheme (url : String) : Bool :=
  let pre := url.data.takeWhile (· ≠ ':')
  pre.length != url.data.length && pre.length != 0 &&
    pre.all (fun c => c.isAlpha || c.isDigit || c = '+' || c = '-' || c = '.')

/-- The base path truncated after its last `/` (the RFC 3986 "merge"
step); `/` when the base path is empty. -/
def dirOfPath (p : String) : String :=
  if p = "" then "/" else ⟨(p.data.reverse.dropWhile (· ≠ '/')).reverse⟩

/-- Split a character list at the first occurrence of `://`, returning
the parts before and after the marker (`none` if absent). -/
def splitSchemeMarker : List Char → Option (List Char × List Char)
  | [] => none
  | c :: rest =>
    if [':', '/', '/'].isPrefixOf (c :: rest) then some ([], rest.drop 2)
    else
      match splitSchemeMarker rest with
      | some (pre, post) => some (c :: pre, post)
      | none => none

/-- Model of `urllib.parse.urljoin` restricted to hierarchical absolute
bases of the form `scheme://netloc[/path]` (the only bases this program
uses); dot-segment normalisation is omitted. -/
def pyUrljoin (base url : String) : String :=
  if base = "" then url
  else if url = "" then base
  else if hasScheme url then url
  else
    match splitSchemeMarker base.data with
    | some (scheme, rest) =>
      let netloc : String := ⟨rest.takeWhile (· ≠ '/')⟩
      let path : String := ⟨rest.dropWhile (· ≠ '/')⟩
      if strStartsWith url "//" then (⟨scheme⟩ : String) ++ ":" ++ url
      else if strStartsWith url "/" then (⟨scheme⟩ : String) ++ "://" ++ netloc ++ url
      else (⟨scheme⟩ : String) ++ "://" ++ netloc ++ dirOfPath path ++ url
    | none => url

/-- URL preprocessing in `download_challenge_files`:
`if not file_url.startswith('http'): file_url = urljoin(base_url, file_url)`. -/
def resolveFileUrl (base url : String) : String :=
  if strStartsWith url "http" then url else pyUrljoin base url

deriving instance DecidableEq for Except

/-- A challenge summary from the list endpoint; each field is `none`
when the corresponding key is absent from the JSON object. -/
structure Summary where
  category : Option String
  name : Option String
  id : Option Nat
deriving DecidableEq, Repr

/-- A tag object `{value: string}` in a challenge detail. -/
structure ChTag where
  value : String
deriving DecidableEq, Repr

/-- A challenge detail object; `none` fields model absent JSON keys. -/
structure Detail where
  description : Option String
  category : Option String
  value : Option Int
  tags : Option (List ChTag)
  files : Option (List String)
deriving DecidableEq, Repr

/-- The parsed JSON body of the challenge-list endpoint. -/
structure RespBody where
  data : Option (List Summary)
deriving DecidableEq, Repr

/-- The sidecar `.ctfd.yaml` document; timestamps are modelled as `Nat`
(the ISO string of `datetime.now()` is opaque to the program). -/
structure Cfg where
  platform : Option String
  url : Option String
  created_at : Option Nat
  updated_at : Option Nat
  last_sync : Option Nat
  version : Option Nat
deriving DecidableEq, Repr

/-- Observable actions of a run (directory creation, file and config
writes, warnings and error prints). -/
inductive Event where
  | ensureDir (path : String)
  | dirFail (path : String)
  | warnConfig
  | writeConfig (c : Cfg)
  | writeFile (path content : String)
  | warnReadme (name : String)
  | download (path : String)
  | warnDownload (url : String)
  | noFiles (name : String) (id : Nat)
  | printErr (msg : String)
deriving DecidableEq, Repr

/-- Oracles for the world outside the program: the sidecar file state
(`none` = absent, `.error` = unreadable/unparsable, `.ok` = parsed),
whether the sidecar is writable, the challenge-list HTTP exchange, the
per-id result of `fetch_challenge_details` (`.ok none` = falsy/empty
`data`), directory creation/permission probes, per-URL download
success, and the current clock. -/
structure Env where
  configFile : Option (Except String Cfg)
  configWritable : Bool
  http : Except String (Nat × RespBody)
  detailOf : Nat → Except String (Option Detail)
  dirOK : String → Bool
  downloadOK : String → Bool
  now : Nat

/-- Model of `requests.Response.raise_for_status`: raises `HTTPError`
exactly for status codes 400–599. -/
def raise_for_status (status : Nat) : Except String Unit :=
  if 400 ≤ status ∧ status < 500 then .error (toString status ++ " Client Error")
  else if 500 ≤ status ∧ status < 600 then .error (toString status ++ " Server Error")
  else .ok ()

/-- `fetch_challenges` from `src/ctfd.py`, over the HTTP response
modelled as a transport failure or a (status, parsed body) pair:
`response.raise_for_status(); return response.json().get('data', [])`,
with any `RequestException` re-raised as
`Exception(f"Failed to fetch challenges: {e}")`. -/
def fetch_challenges (resp : Except String (Nat × RespBody)) : Except String (List Summary) :=
  match resp with
  | .error e => .error ("Failed to fetch challenges: " ++ e)
  | .ok (status, body) =>
    match raise_for_status status with
    | .error e => .error ("Failed to fetch challenges: " ++ e)
    | .ok _ => .ok (body.data.getD [])

/-- The `(category, name, id)` triple retained by the guard
`if not all([category, name, challenge_id]): continue` in
`organize_challenges_by_category`: `none` when any field is absent or
falsy (empty string, zero). -/
def summaryEntry (s : Summary) : Option (String × String × Nat) :=
  match s.category, s.name, s.id with
  | some c, some n, some i => if c ≠ "" ∧ n ≠ "" ∧ i ≠ 0 then some (c, n, i) else none
  | _, _, _ => none

/-- `categories[category].append((name, id))`, creating the key at the
end of the (insertion-ordered) dict when absent. -/
def insertAppend (m : List (String × List (String × Nat))) (k : String) (p : String × Nat) :
    List (String × List (String × Nat)) :=
  match m with
  | [] => [(k, [p])]
  | (k0, v) :: rest => if k0 = k then (k0, v ++ [p]) :: rest else (k0, v) :: insertAppend rest k p

/-- One iteration of the loop in `organize_challenges_by_category`. -/
def addChallenge (acc : List (String × List (String × Nat))) (s : Summary) :
    List (String × List (String × Nat)) :=
  match summaryEntry s with
  | some (c, n, i) => insertAppend acc c (n, i)
  | none => acc

/-- `organize_challenges_by_category` from `src/ctfd.py`; the Python
dict (insertion-ordered) is modelled as an association list. -/
def organize_challenges_by_category (challenges : List Summary) :
    List (String × List (String × Nat)) :=
  challenges.foldl addChallenge []

/-- The README text written by `create_readme` for a non-empty detail;
`toString` renders the integer fields as the f-strings do. -/
def readmeContent (challenge_id : Nat) (challenge_name : String) (d : Detail) : String :=
  "# " ++ challenge_name ++ "\n\n" ++ d.description.getD "No description provided" ++ "\n\n"
    ++ "## Challenge Details\n"
    ++ "- ID: " ++ toString challenge_id ++ "\n"
    ++ "- Category: " ++ d.category.getD "N/A" ++ "\n"
    ++ "- Value: " ++ (match d.value with | some v => toString v | none => "N/A") ++ " points\n"
    ++ (match d.tags with
        | some (t :: ts) => "- Tags: " ++ String.intercalate ", " ((t :: ts).map ChTag.value) ++ "\n"
        | _ => "")
    ++ (match d.files with
        | some (u :: us) =>
          "\n## Files\n"
            ++ String.join ((u :: us).map fun url => "- `" ++ pyBasename (pySplitQ url) ++ "`\n")
        | _ => "")

/-- `create_readme` from `src/ctfd.py`: the surrounding
`try/except Exception` turns a detail-fetch failure into a warning; an
empty (falsy) detail returns silently; the file write itself is
modelled as succeeding. -/
def create_readme (env : Env) (challenge_dir : String) (challenge_id : Nat)
    (challenge_name : String) : List Event :=
  match env.detailOf challenge_id with
  | .error _ => [.warnReadme challenge_name]
  | .ok none => []
  | .ok (some d) =>
    [.writeFile (osPathJoin challenge_dir "README.md") (readmeContent challenge_id challenge_name d)]

/-- The per-file loop of `download_challenge_files`: the events
performed and the `downloaded_files` accumulator.  A failed request for
one file is caught inside the loop (warning, continue). -/
def downloadLoop (env : Env) (base download_dir : String) :
    List String → List Event × List String
  | [] => ([], [])
  | url :: rest =>
    let resolved := resolveFileUrl base url
    let fname := pyBasename (pySplitQ resolved)
    let (evs, names) := downloadLoop env base download_dir rest
    if env.downloadOK resolved then
      (.download (osPathJoin download_dir fname) :: evs, fname :: names)
    else
      (.warnDownload resolved :: evs, names)

/-- `download_challenge_files` from `src/ctfd.py`.  The call to
`fetch_challenge_details` on its first line is NOT inside a `try`
block, so a detail-fetch failure escapes this function (`.error`).
The returned `Bool` is `bool(downloaded_files)`. -/
def download_challenge_files (env : Env) (base : String) (challenge_id : Nat)
    (download_dir : String) : List Event × Except String Bool :=
  match env.detailOf challenge_id with
  | .error e => ([], .error e)
  | .ok none => ([], .ok false)
  | .ok (some d) =>
    match d.files with
    | none => ([], .ok false)
    | some [] => ([], .ok false)
    | some fs =>
      if env.dirOK download_dir then
        let (evs, names) := downloadLoop env base download_dir fs
        (.ensureDir download_dir :: evs, .ok (!names.isEmpty))
      else ([.dirFail download_dir], .ok false)

/-- The body of the inner loop of `create_challenge_directories` for one
`(name, challenge_id)` pair: directory probe, README, file download,
"No files downloaded" message when the download returns falsy. -/
def processChallenge (env : Env) (base category_dir : String) (p : String × Nat) :
    List Event × Except String Unit :=
  let challenge_dir := osPathJoin category_dir (sanitizeS p.1)
  if env.dirOK challenge_dir then
    let evsR := create_readme env challenge_dir p.2 p.1
    match download_challenge_files env base p.2 challenge_dir with
    | (evsD, .error e) => (.ensureDir challenge_dir :: evsR ++ evsD, .error e)
    | (evsD, .ok b) =>
      (.ensureDir challenge_dir :: evsR ++ evsD ++ (if b then [] else [.noFiles p.1 p.2]), .ok ())
  else ([.dirFail challenge_dir], .ok ())

/-- The inner loop of `create_challenge_directories`; an exception from
any iteration propagates (there is no `try` in this function). -/
def processChallenges (env : Env) (base category_dir : String) :
    List (String × Nat) → List Event × Except String Unit
  | [] => ([], .ok ())
  | p :: rest =>
    match processChallenge env base category_dir p with
    | (evs, .error e) => (evs, .error e)
    | (evs, .ok _) =>
      let (evs2, r) := processChallenges env base category_dir rest
      (evs ++ evs2, r)

/-- The body of the outer loop of `create_challenge_directories` for one
category; an unwritable category directory skips all its challenges. -/
def processCategory (env : Env) (base root : String)
    (entry : String × List (String × Nat)) : List Event × Except String Unit :=
  let category_dir := osPathJoin root (sanitizeS entry.1)
  if env.dirOK category_dir then
    let (evs, r) := processChallenges env base category_dir entry.2
    (.ensureDir category_dir :: evs, r)
  else ([.dirFail category_dir], .ok ())

/-- `create_challenge_directories` from `src/ctfd.py`. -/
def create_challenge_directories (env : Env) (root base : String) :
    List (String × List (String × Nat)) → List Event × Except String Unit
  | [] => ([], .ok ())
  | entry :: rest =>
    match processCategory env base root entry with
    | (evs, .error e) => (evs, .error e)
    | (evs, .ok _) =>
      let (evs2, r) := create_challenge_directories env root base rest
      (evs ++ evs2, r)

/-- `CTFdConfig.load_config`: the parsed sidecar is returned only when
the file exists, parses, and its `platform` field equals `"CTFd"`. -/
def load_config (env : Env) : List Event × Option Cfg :=
  match env.configFile with
  | none => ([], none)
  | some (.error _) => ([.warnConfig], none)
  | some (.ok c) => if c.platform = some "CTFd" then ([], some c) else ([.warnConfig], none)

/-- `CTFdConfig.create_config`: writes a fresh sidecar; a write failure
is caught, logged as a warning, and surfaces only as a `none` return. -/
def create_config (env : Env) (base : String) : List Event × Option Cfg :=
  let fresh : Cfg :=
    { platform := some "CTFd", url := some base, created_at := some env.now,
      updated_at := some env.now, last_sync := none, version := some 1 }
  if env.configWritable then ([.writeConfig fresh], some fresh) else ([.warnConfig], none)

/-- `CTFdConfig.update_config` with patch `{'last_sync': now}`: re-read
the sidecar, merge the patch, bump `updated_at`, rewrite.  Read and
rewrite sit in one `try` block, so a failure of either (unreadable
sidecar, or a sidecar that cannot be rewritten, `env.configWritable`)
is caught, logged as a warning, and surfaces only as a `False`
return. -/
def update_config (env : Env) : List Event × Bool :=
  match env.configFile with
  | some (.ok c) =>
    if env.configWritable then
      ([.writeConfig { c with last_sync := some env.now, updated_at := some env.now }], true)
    else ([.warnConfig], false)
  | _ => ([.warnConfig], false)

/-- `run_from_config` from `src/ctfd.py`; `.error` models an exception
escaping to `__main__`.  Reading `config['url']` from a config without
a `url` key raises `KeyError`. -/
def run_from_config (env : Env) (ctf_dir : String) : List Event × Except String Unit :=
  match load_config env with
  | (evs, none) => (evs, .error "No valid CTFd config found")
  | (evs, some config) =>
    match config.url with
    | none => (evs, .error "KeyError: url")
    | some url =>
      match fetch_challenges env.http with
      | .error e => (evs, .error e)
      | .ok [] => (evs, .ok ())
      | .ok (s :: rest) =>
        match create_challenge_directories env ctf_dir url
            (organize_challenges_by_category (s :: rest)) with
        | (evs2, .error e) => (evs ++ evs2, .error e)
        | (evs2, .ok _) =>
          let (evs3, _) := update_config env
          (evs ++ evs2 ++ evs3, .ok ())

/-- The tail of `run_with_new_config` after the config write: fetch,
categorize, materialize (an empty challenge list is a benign no-op). -/
def fetchAndMaterialize (env : Env) (ctf_dir base : String) : List Event × Except String Unit :=
  match fetch_challenges env.http with
  | .error e => ([], .error e)
  | .ok [] => ([], .ok ())
  | .ok (s :: rest) =>
    create_challenge_directories env ctf_dir base (organize_challenges_by_category (s :: rest))

/-- `run_with_new_config` from `src/ctfd.py`; the return value of
`CTFdConfig.create_config` is discarded. -/
def run_with_new_config (env : Env) (base ctf_dir : String) : List Event × Except String Unit :=
  if env.dirOK ctf_dir then
    let (evs1, _) := create_config env base
    let (evs2, r) := fetchAndMaterialize env ctf_dir base
    (.ensureDir ctf_dir :: evs1 ++ evs2, r)
  else
    ([.dirFail ctf_dir], .error ("Cannot create or write to directory: " ++ ctf_dir))

/-- The `__main__` block in resume mode (no `-u` URL given): exit
status (`exit(1)` on an uncaught exception, `0` otherwise) together
with the events performed. -/
def mainResume (env : Env) (ctf_dir : String) : Nat × List Event :=
  match run_from_config env ctf_dir with
  | (evs, .error e) => (1, evs ++ [.printErr ("Error: " ++ e)])
  | (evs, .ok _) => (0, evs)

/-! Concrete fixtures used by witnesses and counterexamples. -/

/-- The detail response of the worked example in the spec. -/
def detailBabyRE : Detail :=
  { description := some "desc", category := some "Reverse", value := some 50,
    tags := some [⟨"easy"⟩], files := some [] }

/-- The single-challenge list of the worked example in the spec. -/
def summaryBabyRE : Summary := ⟨some "Reverse", some "Baby RE", some 1⟩

/-- A fully permissive environment serving the worked example. -/
def envC4 : Env :=
  { configFile := none, configWritable := true,
    http := .ok (200, ⟨some [summaryBabyRE]⟩),
    detailOf := fun _ => .ok (some detailBabyRE),
    dirOK := fun _ => true, downloadOK := fun _ => true, now := 7 }

/-- Two sibling challenges in one category; the detail fetch for the
first one fails. -/
def envC1 : Env :=
  { envC4 with
    http := .ok (200, ⟨some [⟨some "pwn", some "a", some 1⟩, ⟨some "pwn", some "b", some 2⟩]⟩),
    detailOf := fun i => if i = 1 then .error "boom" else .ok (some detailBabyRE) }

/-- A valid sidecar config. -/
def cfgOK : Cfg :=
  { platform := some "CTFd", url := some "https://ctf.test", created_at := some 1,
    updated_at := some 1, last_sync := none, version := some 1 }

/-- Resume-mode environment: valid sidecar, one challenge whose detail
comes back empty (falsy). -/
def envC6ok : Env := { envC4 with configFile := some (.ok cfgOK), detailOf := fun _ => .ok none }

/-- Resume-mode environment: valid sidecar, empty challenge list. -/
def envC6no : Env := { envC6ok with http := .ok (200, ⟨some []⟩) }

/-- Resume-mode environment: valid sidecar that cannot be rewritten. -/
def envC6rw : Env := { envC6ok with configWritable := false }

/-- A detail carrying two attachment URLs (one relative, one absolute path). -/
def detailFiles : Detail :=
  { description := none, category := none, value := none, tags := none,
    files := some ["files/a.zip?token=1", "/f/b.bin"] }

/-- Environment whose details carry attachments. -/
def envC8 : Env := { envC4 with detailOf := fun _ => .ok (some detailFiles) }

/-- Environment whose sidecar config cannot be written. -/
def envC10 : Env := { envC4 with configWritable := false }

/-! Helper lemmas about the string-level functions. -/

theorem list_map_id_on {α : Type} (f : α → α) :
    ∀ l : List α, (∀ a ∈ l, f a = a) → l.map f = l
  | [], _ => rfl
  | a :: l, h => by
    rw [List.map_cons, h a (List.mem_cons_self a l),
      list_map_id_on f l fun b hb => h b (List.mem_cons_of_mem a hb)]

theorem dropWhile_eq_self_of_none {α : Type} (p : α → Bool) (l : List α)
    (h : ∀ a ∈ l, p a = false) : l.dropWhile p = l := by
  cases l with
  | nil => rfl
  | cons a l => simp [List.dropWhile_cons, h a (List.mem_cons_self a l)]

theorem mem_of_mem_dropWhile {α : Type} {p : α → Bool} :
    ∀ {l : List α} {a : α}, a ∈ l.dropWhile p → a ∈ l := by
  intro l
  induction l with
  | nil => intro a h; exact h
  | cons b l ih =>
    intro a h
    rw [List.dropWhile_cons] at h
    by_cases hb : p b = true
    · rw [if_pos hb] at h
      exact List.mem_cons_of_mem b (ih h)
    · rw [if_neg hb] at h
      exact h

theorem mem_of_mem_pyStrip {c : Char} {l : List Char} (h : c ∈ pyStrip l) : c ∈ l := by
  unfold pyStrip at h
  rw [List.mem_reverse] at h
  have h1 := mem_of_mem_dropWhile h
  rw [List.mem_reverse] at h1
  exact mem_of_mem_dropWhile h1

theorem keepChar_cases (a : Char) :
    (keepChar a).isAlphanum = true ∨ keepChar a = ' ' ∨ keepChar a = '-' ∨ keepChar a = '_' := by
  unfold keepChar
  split
  · rename_i h
    simp only [Bool.or_eq_true, decide_eq_true_eq] at h
    rcases h with ((h | h) | h) | h
    · exact Or.inl h
    · exact Or.inr (Or.inl h)
    · exact Or.inr (Or.inr (Or.inl h))
    · exact Or.inr (Or.inr (Or.inr h))
  · exact Or.inr (Or.inr (Or.inr rfl))

theorem underscoreSpace_charset {e : Char}
    (he : e.isAlphanum = true ∨ e = ' ' ∨ e = '-' ∨ e = '_') :
    (underscoreSpace e).isAlphanum = true ∨ underscoreSpace e = '-' ∨ underscoreSpace e = '_' := by
  unfold underscoreSpace
  by_cases hs : e = ' '
  · rw [if_pos hs]
    exact Or.inr (Or.inr rfl)
  · rw [if_neg hs]
    rcases he with h | h | h | h
    · exact Or.inl h
    · exact absurd h hs
    · exact Or.inr (Or.inl h)
    · exact Or.inr (Or.inr h)

/-- Every character of a sanitized name is alphanumeric, `-`, or `_`. -/
theorem sanitize_charset {c : Char} {l : List Char} (h : c ∈ sanitize_name l) :
    c.isAlphanum = true ∨ c = '-' ∨ c = '_' := by
  unfold sanitize_name at h
  rcases List.mem_map.1 h with ⟨d, hd, rfl⟩
  rcases List.mem_map.1 (mem_of_mem_pyStrip hd) with ⟨a, _, rfl⟩
  exact underscoreSpace_charset (keepChar_cases a)

theorem not_space_of_charset {c : Char} (h : c.isAlphanum = true ∨ c = '-' ∨ c = '_') :
    pyIsSpace c = false := by
  rcases h with h | h | h
  · unfold pyIsSpace
    cases hw : c.isWhitespace
    · rfl
    · exfalso
      have hd : ((c = ' ' ∨ c = '\t') ∨ c = '\x0d') ∨ c = '\n' := by
        simpa [Char.isWhitespace, Bool.or_eq_true, decide_eq_true_eq] using hw
      rcases hd with ((rfl | rfl) | rfl) | rfl <;> exact absurd h (by decide)
  · rw [h]; rfl
  · rw [h]; rfl

theorem ne_space_of_charset {c : Char} (h : c.isAlphanum = true ∨ c = '-' ∨ c = '_') :
    c ≠ ' ' := by
  rcases h with h | h | h
  · intro he
    rw [he] at h
    exact absurd h (by decide)
  · rw [h]; decide
  · rw [h]; decide

theorem keepChar_id_of_charset {c : Char} (h : c.isAlphanum = true ∨ c = '-' ∨ c = '_') :
    keepChar c = c := by
  unfold keepChar
  rcases h with h | h | h <;> simp [h]

theorem pyStrip_eq_self_of_charset {l : List Char}
    (h : ∀ c ∈ l, c.isAlphanum = true ∨ c = '-' ∨ c = '_') : pyStrip l = l := by
  unfold pyStrip
  rw [dropWhile_eq_self_of_none pyIsSpace l fun c hc => not_space_of_charset (h c hc)]
  rw [dropWhile_eq_self_of_none pyIsSpace l.reverse
    fun c hc => not_space_of_charset (h c (List.mem_reverse.1 hc))]
  exact List.reverse_reverse l

/-- `sanitize_name` is idempotent. -/
theorem sanitize_idem (l : List Char) :
    sanitize_name (sanitize_name l) = sanitize_name l := by
  have hcs : ∀ c ∈ sanitize_name l, c.isAlphanum = true ∨ c = '-' ∨ c = '_' :=
    fun c hc => sanitize_charset hc
  have h1 : (sanitize_name l).map keepChar = sanitize_name l :=
    list_map_id_on _ _ fun c hc => keepChar_id_of_charset (hcs c hc)
  have h3 : (sanitize_name l).map underscoreSpace = sanitize_name l := by
    refine list_map_id_on _ _ fun c hc => ?_
    unfold underscoreSpace
    rw [if_neg (ne_space_of_charset (hcs c hc))]
  calc sanitize_name (sanitize_name l)
      = (pyStrip ((sanitize_name l).map keepChar)).map underscoreSpace := rfl
    _ = (pyStrip (sanitize_name l)).map underscoreSpace := by rw [h1]
    _ = (sanitize_name l).map underscoreSpace := by rw [pyStrip_eq_self_of_charset hcs]
    _ = sanitize_name l := h3

/-! Characterisation of `organize_challenges_by_category`. -/

/-- Lookup in the association-list model of the category dict. -/
def lookupCat (c : String) : List (String × List (String × Nat)) → List (String × Nat)
  | [] => []
  | (k, v) :: rest => if k = c then v else lookupCat c rest

/-- The keys of the category mapping, in order. -/
def catKeys (m : List (String × List (String × Nat))) : List String :=
  m.map Prod.fst

/-- Modelled from the spec: the `(name, id)` pairs that belong under
category `c`, in input order, duplicates preserved. -/
def catEntries (c : String) (l : List Summary) : List (String × Nat) :=
  l.filterMap fun s =>
    match summaryEntry s with
    | some (c0, n, i) => if c0 = c then some (n, i) else none
    | none => none

/-- Modelled from the spec: first-occurrence order of the categories of
the retained summaries, relative to already-seen categories. -/
def firstSeenOrder (seen : List String) : List Summary → List String
  | [] => []
  | s :: rest =>
    match summaryEntry s with
    | none => firstSeenOrder seen rest
    | some (c, _, _) =>
      if c ∈ seen then firstSeenOrder seen rest
      else c :: firstSeenOrder (c :: seen) rest

theorem lookupCat_insertAppend (c k : String) (p : String × Nat) :
    ∀ m, lookupCat c (insertAppend m k p)
      = if k = c then lookupCat c m ++ [p] else lookupCat c m
  | [] => by
    unfold insertAppend lookupCat
    by_cases h : k = c <;> simp [h, lookupCat]
  | (k0, v) :: rest => by
    unfold insertAppend
    by_cases h0 : k0 = k
    · rw [if_pos h0]
      subst h0
      unfold lookupCat
      by_cases h : k0 = c <;> simp [h]
    · rw [if_neg h0]
      unfold lookupCat
      by_cases h1 : k0 = c
      · have hk : ¬k = c := fun he => h0 (h1.trans he.symm)
        simp [h1, hk]
      · simp [h1, lookupCat_insertAppend c k p rest]

theorem catKeys_insertAppend (k : String) (p : String × Nat) :
    ∀ m, catKeys (insertAppend m k p)
      = if k ∈ catKeys m then catKeys m else catKeys m ++ [k]
  | [] => by simp [insertAppend, catKeys]
  | (k0, v) :: rest => by
    unfold insertAppend
    by_cases h0 : k0 = k
    · rw [if_pos h0]
      subst h0
      have e2 : catKeys ((k0, v ++ [p]) :: rest) = k0 :: catKeys rest := rfl
      have e3 : catKeys ((k0, v) :: rest) = k0 :: catKeys rest := rfl
      rw [e2, e3, if_pos (List.mem_cons_self k0 (catKeys rest))]
    · rw [if_neg h0]
      have e1 : catKeys ((k0, v) :: insertAppend rest k p)
          = k0 :: catKeys (insertAppend rest k p) := rfl
      have e2 : catKeys ((k0, v) :: rest) = k0 :: catKeys rest := rfl
      rw [e1, catKeys_insertAppend k p rest, e2]
      by_cases hk : k ∈ catKeys rest
      · rw [if_pos hk, if_pos (List.mem_cons_of_mem k0 hk)]
      · rw [if_neg hk, if_neg fun h => by
          rcases List.mem_cons.1 h with h1 | h1
          · exact h0 h1.symm
          · exact hk h1]
        rfl

theorem firstSeenOrder_congr : ∀ (l : List Summary) {s1 s2 : List String},
    (∀ x, x ∈ s1 ↔ x ∈ s2) → firstSeenOrder s1 l = firstSeenOrder s2 l := by
  intro l
  induction l with
  | nil => intro s1 s2 _; rfl
  | cons s l ih =>
    intro s1 s2 h
    unfold firstSeenOrder
    cases he : summaryEntry s with
    | none => simp only [he]; exact ih h
    | some t =>
      obtain ⟨c, n, i⟩ := t
      simp only [he]
      rw [if_congr (h c) rfl rfl]
      by_cases hc : c ∈ s2
      · rw [if_pos hc, if_pos hc]
        exact ih h
      · rw [if_neg hc, if_neg hc]
        have hx : ∀ x, x ∈ c :: s1 ↔ x ∈ c :: s2 := by
          intro x
          simp only [List.mem_cons]
          exact or_congr Iff.rfl (h x)
        rw [ih hx]

theorem lookupCat_foldl (c : String) : ∀ (l : List Summary) (acc : List (String × List (String × Nat))),
    lookupCat c (l.foldl addChallenge acc) = lookupCat c acc ++ catEntries c l := by
  intro l
  induction l with
  | nil => intro acc; simp [catEntries]
  | cons s l ih =>
    intro acc
    rw [List.foldl_cons, ih (addChallenge acc s)]
    unfold addChallenge
    cases he : summaryEntry s with
    | none => simp [catEntries, List.filterMap_cons, he]
    | some t =>
      obtain ⟨c0, n, i⟩ := t
      simp only [he]
      rw [lookupCat_insertAppend]
      by_cases hc : c0 = c
      · rw [if_pos hc]
        simp [catEntries, List.filterMap_cons, he, hc]
      · rw [if_neg hc]
        simp [catEntries, List.filterMap_cons, he, hc]

theorem firstSeenOrder_cons (seen : List String) (s : Summary) (l : List Summary) :
    firstSeenOrder seen (s :: l)
      = match summaryEntry s with
        | none => firstSeenOrder seen l
        | some (c, _, _) =>
          if c ∈ seen then firstSeenOrder seen l else c :: firstSeenOrder (c :: seen) l := rfl

theorem catKeys_foldl : ∀ (l : List Summary) (acc : List (String × List (String × Nat))),
    catKeys (l.foldl addChallenge acc) = catKeys acc ++ firstSeenOrder (catKeys acc) l := by
  intro l
  induction l with
  | nil => intro acc; simp [firstSeenOrder]
  | cons s l ih =>
    intro acc
    rw [List.foldl_cons, ih (addChallenge acc s)]
    cases he : summaryEntry s with
    | none =>
      have ha : addChallenge acc s = acc := by unfold addChallenge; rw [he]
      have hf : firstSeenOrder (catKeys acc) (s :: l) = firstSeenOrder (catKeys acc) l := by
        simp only [firstSeenOrder_cons, he]
      rw [ha, hf]
    | some t =>
      obtain ⟨c, n, i⟩ := t
      have ha : addChallenge acc s = insertAppend acc c (n, i) := by
        unfold addChallenge; rw [he]
      have hf : firstSeenOrder (catKeys acc) (s :: l)
          = if c ∈ catKeys acc then firstSeenOrder (catKeys acc) l
            else c :: firstSeenOrder (c :: catKeys acc) l := by
        simp only [firstSeenOrder_cons, he]
      rw [ha, hf, catKeys_insertAppend]
      by_cases hc : c ∈ catKeys acc
      · rw [if_pos hc, if_pos hc]
      · rw [if_neg hc, if_neg hc]
        have hx : ∀ x, x ∈ catKeys acc ++ [c] ↔ x ∈ c :: catKeys acc := by
          intro x
          simp only [List.mem_append, List.mem_cons, List.not_mem_nil, or_false]
          exact or_comm
        rw [firstSeenOrder_congr l hx, List.append_assoc]
        rfl

/-! Path facts used by the all-space-name claim. -/

theorem dropWhile_eq_nil_of_all {α : Type} (p : α → Bool) :
    ∀ l : List α, (∀ a ∈ l, p a = true) → l.dropWhile p = []
  | [], _ => rfl
  | a :: l, h => by
    rw [List.dropWhile_cons, if_pos (h a (List.mem_cons_self a l))]
    exact dropWhile_eq_nil_of_all p l fun b hb => h b (List.mem_cons_of_mem a hb)

/-- A name consisting only of spaces sanitises to the empty string. -/
theorem sanitize_name_all_spaces {l : List Char} (h : ∀ c ∈ l, c = ' ') :
    sanitize_name l = [] := by
  have h1 : l.map keepChar = l :=
    list_map_id_on _ _ fun c hc => by rw [h c hc]; decide
  have h2 : pyStrip l = [] := by
    unfold pyStrip
    rw [dropWhile_eq_nil_of_all pyIsSpace l fun c hc => by rw [h c hc]; decide]
    rfl
  unfold sanitize_name
  rw [h1, h2]
  rfl

theorem strEndsWith_append_slash (a : String) : strEndsWith (a ++ "/") "/" = true := by
  unfold strEndsWith
  rw [String.data_append]
  show List.isSuffixOf ['/'] (a.data ++ ['/']) = true
  unfold List.isSuffixOf
  rw [List.reverse_append, List.reverse_singleton, List.singleton_append]
  simp [List.isPrefixOf]

theorem osPathJoin_empty_cases (a : String) :
    osPathJoin a "" = a ∨
      (osPathJoin a "" = a ++ "/" ∧ a ≠ "" ∧ strEndsWith a "/" = false) := by
  unfold osPathJoin
  rw [show strStartsWith "" "/" = false from rfl, if_neg Bool.false_ne_true]
  by_cases h1 : a = ""
  · left
    simp [h1, String.append_empty]
  · by_cases h2 : strEndsWith a "/" = true
    · left
      have hc : (decide (a = "") || strEndsWith a "/") = true := by rw [h2, Bool.or_true]
      rw [if_pos hc]
      exact String.append_empty a
    · right
      rw [Bool.not_eq_true] at h2
      have hc : (decide (a = "") || strEndsWith a "/") = false := by
        rw [decide_eq_false h1, h2]
        rfl
      rw [hc, if_neg Bool.false_ne_true]
      exact ⟨String.append_empty (a ++ "/"), h1, h2⟩

theorem normDir_append_slash (a : String) : normDir (a ++ "/") = normDir a := by
  unfold normDir
  apply String.ext
  rw [String.data_append]
  show ((a.data ++ ['/']).reverse.dropWhile (· = '/')).reverse
      = (a.data.reverse.dropWhile (· = '/')).reverse
  rw [List.reverse_append]
  show (('/' :: a.data.reverse).dropWhile (· = '/')).reverse = _
  rw [List.dropWhile_cons, if_pos (by decide)]

theorem osPathJoin_slash_cancel (a fname : String) (hf : strStartsWith fname "/" = false)
    (h1 : a ≠ "") (h2 : strEndsWith a "/" = false) :
    osPathJoin (a ++ "/") fname = osPathJoin a fname := by
  unfold osPathJoin
  rw [hf, if_neg Bool.false_ne_true, if_neg Bool.false_ne_true]
  have hc : (decide (a ++ "/" = "") || strEndsWith (a ++ "/") "/") = true := by
    rw [strEndsWith_append_slash, Bool.or_true]
  rw [hc, if_pos rfl]
  have hc2 : (decide (a = "") || strEndsWith a "/") = false := by
    rw [decide_eq_false h1, h2]
    rfl
  rw [hc2, if_neg Bool.false_ne_true]

/-! Characterisation of the attachment-download loop. -/

theorem isEmpty_map {α β : Type} (f : α → β) (l : List α) :
    (l.map f).isEmpty = l.isEmpty := by
  cases l <;> rfl

theorem not_isEmpty_filter_eq_any {α : Type} (g : α → Bool) :
    ∀ l : List α, (!(l.filter g).isEmpty) = l.any g
  | [] => rfl
  | a :: l => by
    rw [List.filter_cons, List.any_cons]
    by_cases h : g a = true
    · rw [if_pos h, h, Bool.true_or]
      rfl
    · have hf : g a = false := Bool.eq_false_iff.mpr h
      rw [if_neg h, hf, Bool.false_or]
      exact not_isEmpty_filter_eq_any g l

theorem downloadLoop_spec (env : Env) (base dir : String) : ∀ fs : List String,
    downloadLoop env base dir fs
      = (fs.map fun url =>
            if env.downloadOK (resolveFileUrl base url) = true then
              Event.download (osPathJoin dir (pyBasename (pySplitQ (resolveFileUrl base url))))
            else Event.warnDownload (resolveFileUrl base url),
         (fs.filter fun url => env.downloadOK (resolveFileUrl base url)).map
            fun url => pyBasename (pySplitQ (resolveFileUrl base url)))
  | [] => rfl
  | url :: rest => by
    unfold downloadLoop
    rw [downloadLoop_spec env base dir rest]
    by_cases h : env.downloadOK (resolveFileUrl base url) = true
    · simp [h, List.filter_cons]
    · have hf : env.downloadOK (resolveFileUrl base url) = false := Bool.eq_false_iff.mpr h
      simp [hf, List.filter_cons]

/-! Claim theorems. -/

theorem create_readme_of_error {env : Env} {i : Nat} {msg : String} (dir nm : String)
    (hd : env.detailOf i = .error msg) : create_readme env dir i nm = [.warnReadme nm] := by
  unfold create_readme
  rw [hd]

theorem download_files_of_error {env : Env} {i : Nat} {msg : String} (base dir : String)
    (hd : env.detailOf i = .error msg) :
    download_challenge_files env base i dir = ([], .error msg) := by
  unfold download_challenge_files
  rw [hd]

/-- C1 counterexample: with two sibling challenges in one category and a
failing detail fetch for the first, the materializer does NOT continue:
it aborts with the propagated exception after the README warning, and
the sibling challenge `b` (id 2) is never processed. -/
theorem c1_abort_cex :
    create_challenge_directories envC1 "" "https://ctf.test"
        (organize_challenges_by_category
          [⟨some "pwn", some "a", some 1⟩, ⟨some "pwn", some "b", some 2⟩])
      = ([.ensureDir "pwn", .ensureDir "pwn/a", .warnReadme "a"], .error "boom")
      ∧ Event.ensureDir "pwn/b"
          ∉ (create_challenge_directories envC1 "" "https://ctf.test"
              (organize_challenges_by_category
                [⟨some "pwn", some "a", some 1⟩, ⟨some "pwn", some "b", some 2⟩])).1 := by
  refine ⟨by decide, by decide⟩

/-- C1 (amended): when the detail fetch for the first challenge of the
first category fails (its directories being writable), `create_readme`
catches the failure and logs a warning, skipping README generation; but
the re-fetch inside `download_challenge_files` is outside any handler,
so the exception propagates and the materializer aborts at once: the
run ends in that error with no events for the remaining `(name, id)`
pairs or categories. -/
theorem c1_detail_failure_aborts (env : Env) (root base cat nm msg : String) (i : Nat)
    (rest : List (String × Nat)) (restCats : List (String × List (String × Nat)))
    (hd : env.detailOf i = .error msg)
    (h1 : env.dirOK (osPathJoin root (sanitizeS cat)) = true)
    (h2 : env.dirOK (osPathJoin (osPathJoin root (sanitizeS cat)) (sanitizeS nm)) = true) :
    create_challenge_directories env root base ((cat, (nm, i) :: rest) :: restCats)
      = ([.ensureDir (osPathJoin root (sanitizeS cat)),
          .ensureDir (osPathJoin (osPathJoin root (sanitizeS cat)) (sanitizeS nm)),
          .warnReadme nm], .error msg) := by
  have hpc : processChallenge env base (osPathJoin root (sanitizeS cat)) (nm, i)
      = ([.ensureDir (osPathJoin (osPathJoin root (sanitizeS cat)) (sanitizeS nm)),
          .warnReadme nm], .error msg) := by
    simp [processChallenge, create_readme_of_error _ nm hd, download_files_of_error base _ hd, h2]
  have hrow : processChallenges env base (osPathJoin root (sanitizeS cat)) ((nm, i) :: rest)
      = ([.ensureDir (osPathJoin (osPathJoin root (sanitizeS cat)) (sanitizeS nm)),
          .warnReadme nm], .error msg) := by
    simp [processChallenges, hpc]
  have hcat : processCategory env base root (cat, (nm, i) :: rest)
      = ([.ensureDir (osPathJoin root (sanitizeS cat)),
          .ensureDir (osPathJoin (osPathJoin root (sanitizeS cat)) (sanitizeS nm)),
          .warnReadme nm], .error msg) := by
    simp [processCategory, hrow, h1]
  simp [create_challenge_directories, hcat]

/-- C1 witness: the amended theorem applied to the concrete aborting
environment. -/
theorem c1_detail_failure_aborts_witness :
    envC1.detailOf 1 = .error "boom"
      ∧ envC1.dirOK "pwn" = true
      ∧ envC1.dirOK "pwn/a" = true
      ∧ create_challenge_directories envC1 "" "https://ctf.test" [("pwn", [("a", 1), ("b", 2)])]
          = ([.ensureDir "pwn", .ensureDir "pwn/a", .warnReadme "a"], .error "boom") :=
  ⟨rfl, rfl, rfl,
    c1_detail_failure_aborts envC1 "" "https://ctf.test" "pwn" "a" "boom" 1 [("b", 2)] []
      rfl rfl rfl⟩

/-- C2 counterexample: the summary `{category: "", name: "a", id: 1}`
is not missing any of the three fields, yet it is excluded from the
category index entirely (Python truthiness also rejects present-but-
empty values). -/
theorem c2_present_but_falsy_cex :
    (Summary.mk (some "") (some "a") (some 1)).category.isSome = true
      ∧ (Summary.mk (some "") (some "a") (some 1)).name.isSome = true
      ∧ (Summary.mk (some "") (some "a") (some 1)).id.isSome = true
      ∧ organize_challenges_by_category [Summary.mk (some "") (some "a") (some 1)] = [] := by
  refine ⟨rfl, rfl, rfl, by decide⟩

/-- C2 (amended): a summary contributes a `(name, id)` entry exactly
when `category`, `name` and `id` are all present AND truthy (non-empty
strings, non-zero id); entries are appended under their category in a
single pass, in input order, duplicates preserved (the `catEntries`
characterisation), and the mapping lists categories in first-occurrence
order of the retained summaries (the `firstSeenOrder`
characterisation). -/
theorem c2_organize_spec (l : List Summary) :
    (∀ c, lookupCat c (organize_challenges_by_category l) = catEntries c l)
      ∧ catKeys (organize_challenges_by_category l) = firstSeenOrder [] l := by
  constructor
  · intro c
    have h := lookupCat_foldl c l []
    simpa [organize_challenges_by_category, lookupCat] using h
  · have h := catKeys_foldl l []
    simpa [organize_challenges_by_category, catKeys] using h

/-- C3: `sanitize_name` is idempotent, and its output contains only
alphanumeric characters, hyphens, and underscores. -/
theorem c3_sanitize_idempotent_charset (s : String) :
    sanitizeS (sanitizeS s) = sanitizeS s
      ∧ ∀ c ∈ (sanitizeS s).data, c.isAlphanum = true ∨ c = '-' ∨ c = '_' := by
  constructor
  · show (⟨sanitize_name (sanitizeS s).data⟩ : String) = ⟨sanitize_name s.data⟩
    have hd : (sanitizeS s).data = sanitize_name s.data := rfl
    rw [hd, sanitize_idem]
  · intro c hc
    exact sanitize_charset hc

/-- C3 witness: the theorem evaluated at the concrete input `"a b!c"`. -/
theorem c3_sanitize_witness :
    sanitizeS (sanitizeS "a b!c") = sanitizeS "a b!c"
      ∧ ('a' ∈ (sanitizeS "a b!c").data
          → 'a'.isAlphanum = true ∨ 'a' = '-' ∨ 'a' = '_') :=
  ⟨(c3_sanitize_idempotent_charset "a b!c").1,
   fun h => (c3_sanitize_idempotent_charset "a b!c").2 'a' h⟩

/-- C4: on the worked example (challenge list `[{id:1, name:"Baby RE",
category:"Reverse"}]`, detail `{description:"desc", category:"Reverse",
value:50, tags:[{value:"easy"}], files:[]}`) the materializer writes
`Reverse/Baby_RE/README.md` whose content contains the literal lines
`# Baby RE`, `desc`, `- Category: Reverse`, `- Value: 50 points` and
`- Tags: easy`, and contains no "Files" section. -/
theorem c4_materializer_example :
    (Event.writeFile "Reverse/Baby_RE/README.md" (readmeContent 1 "Baby RE" detailBabyRE)
        ∈ (create_challenge_directories envC4 "" "https://ctf.test"
            (organize_challenges_by_category [summaryBabyRE])).1)
      ∧ readmeContent 1 "Baby RE" detailBabyRE
          = "# Baby RE\n\ndesc\n\n## Challenge Details\n- ID: 1\n- Category: Reverse\n- Value: 50 points\n- Tags: easy\n"
      ∧ "# Baby RE".data ∈ (readmeContent 1 "Baby RE" detailBabyRE).data.splitOn '\n'
      ∧ "desc".data ∈ (readmeContent 1 "Baby RE" detailBabyRE).data.splitOn '\n'
      ∧ "- Category: Reverse".data ∈ (readmeContent 1 "Baby RE" detailBabyRE).data.splitOn '\n'
      ∧ "- Value: 50 points".data ∈ (readmeContent 1 "Baby RE" detailBabyRE).data.splitOn '\n'
      ∧ "- Tags: easy".data ∈ (readmeContent 1 "Baby RE" detailBabyRE).data.splitOn '\n'
      ∧ hasSubstr "Files".data (readmeContent 1 "Baby RE" detailBabyRE).data = false := by
  decide

/-- C5: resume mode without a sidecar config (or with one whose
`platform` is not `"CTFd"`) exits with status 1 and creates no category
or challenge directory. -/
theorem c5_resume_no_config_fails (env : Env) (dir : String)
    (h : env.configFile = none
        ∨ ∃ c, env.configFile = some (.ok c) ∧ c.platform ≠ some "CTFd") :
    (mainResume env dir).1 = 1
      ∧ ∀ e ∈ (mainResume env dir).2, ∀ p, e ≠ Event.ensureDir p := by
  have hrun : run_from_config env dir = ([], .error "No valid CTFd config found")
      ∨ run_from_config env dir = ([.warnConfig], .error "No valid CTFd config found") := by
    rcases h with h | ⟨c, hc, hp⟩
    · left
      unfold run_from_config load_config
      rw [h]
    · right
      unfold run_from_config load_config
      rw [hc]
      simp [hp]
  rcases hrun with h | h
  · have hm : mainResume env dir = (1, [.printErr "Error: No valid CTFd config found"]) := by
      unfold mainResume
      rw [h]
      rfl
    rw [hm]
    refine ⟨rfl, ?_⟩
    intro e he p
    rcases List.mem_singleton.mp he with rfl
    simp
  · have hm : mainResume env dir
        = (1, [.warnConfig, .printErr "Error: No valid CTFd config found"]) := by
      unfold mainResume
      rw [h]
      rfl
    rw [hm]
    refine ⟨rfl, ?_⟩
    intro e he p
    rcases List.mem_cons.mp he with rfl | he2
    · simp
    · rcases List.mem_singleton.mp he2 with rfl
      simp

/-- C5 witness: the theorem applied to the config-less environment. -/
theorem c5_resume_no_config_witness :
    envC4.configFile = none ∧ (mainResume envC4 "root").1 = 1 :=
  ⟨rfl, (c5_resume_no_config_fails envC4 "root" (Or.inl rfl)).1⟩

theorem downloadLoop_no_writeConfig (env : Env) (base dir : String) (fs : List String)
    (c2 : Cfg) : Event.writeConfig c2 ∉ (downloadLoop env base dir fs).1 := by
  intro hmem
  rw [downloadLoop_spec] at hmem
  rcases List.mem_map.1 hmem with ⟨url, _, heq⟩
  by_cases h : env.downloadOK (resolveFileUrl base url) = true
  · rw [if_pos h] at heq
    exact Event.noConfusion heq
  · rw [if_neg h] at heq
    exact Event.noConfusion heq

theorem create_readme_no_writeConfig (env : Env) (dir : String) (i : Nat) (nm : String)
    (c2 : Cfg) : Event.writeConfig c2 ∉ create_readme env dir i nm := by
  rcases hdi : env.detailOf i with e | od
  · simp [create_readme, hdi]
  · rcases od with _ | d
    · simp [create_readme, hdi]
    · simp [create_readme, hdi]

theorem download_files_no_writeConfig (env : Env) (base : String) (i : Nat) (dir : String)
    (c2 : Cfg) : Event.writeConfig c2 ∉ (download_challenge_files env base i dir).1 := by
  rcases hdi : env.detailOf i with e | od
  · simp [download_challenge_files, hdi]
  · rcases od with _ | d
    · simp [download_challenge_files, hdi]
    · rcases hfs : d.files with _ | fs
      · simp [download_challenge_files, hdi, hfs]
      · rcases fs with _ | ⟨u, us⟩
        · simp [download_challenge_files, hdi, hfs]
        · by_cases hw : env.dirOK dir = true
          · have hl := downloadLoop_no_writeConfig env base dir (u :: us) c2
            rcases hloop : downloadLoop env base dir (u :: us) with ⟨evs, names⟩
            have hl2 : Event.writeConfig c2 ∉ evs := by
              rw [hloop] at hl
              exact hl
            simp [download_challenge_files, hdi, hfs, hw, hloop, hl2]
          · have hw2 : env.dirOK dir = false := Bool.eq_false_iff.mpr hw
            simp [download_challenge_files, hdi, hfs, hw2]

theorem processChallenge_no_writeConfig (env : Env) (base catdir : String) (p : String × Nat)
    (c2 : Cfg) : Event.writeConfig c2 ∉ (processChallenge env base catdir p).1 := by
  have hr := create_readme_no_writeConfig env (osPathJoin catdir (sanitizeS p.1)) p.2 p.1 c2
  have hd := download_files_no_writeConfig env base p.2 (osPathJoin catdir (sanitizeS p.1)) c2
  by_cases hw : env.dirOK (osPathJoin catdir (sanitizeS p.1)) = true
  · rcases hdl : download_challenge_files env base p.2 (osPathJoin catdir (sanitizeS p.1))
      with ⟨evsD, r⟩
    have hd2 : Event.writeConfig c2 ∉ evsD := by
      rw [hdl] at hd
      exact hd
    cases r with
    | error e => simp [processChallenge, hw, hdl, hr, hd2]
    | ok b => cases b <;> simp [processChallenge, hw, hdl, hr, hd2]
  · have hw2 : env.dirOK (osPathJoin catdir (sanitizeS p.1)) = false := Bool.eq_false_iff.mpr hw
    simp [processChallenge, hw2]

theorem processChallenges_no_writeConfig (env : Env) (base catdir : String) (c2 : Cfg) :
    ∀ ps : List (String × Nat), Event.writeConfig c2 ∉ (processChallenges env base catdir ps).1
  | [] => by simp [processChallenges]
  | p :: rest => by
    have h1 := processChallenge_no_writeConfig env base catdir p c2
    have h2 := processChallenges_no_writeConfig env base catdir c2 rest
    rcases hpc : processChallenge env base catdir p with ⟨evs, r⟩
    have h1b : Event.writeConfig c2 ∉ evs := by
      rw [hpc] at h1
      exact h1
    cases r with
    | error e => simp [processChallenges, hpc, h1b]
    | ok a =>
      rcases hrest : processChallenges env base catdir rest with ⟨evs2, r2⟩
      have h2b : Event.writeConfig c2 ∉ evs2 := by
        rw [hrest] at h2
        exact h2
      simp [processChallenges, hpc, hrest, h1b, h2b]

theorem processCategory_no_writeConfig (env : Env) (base root : String)
    (entry : String × List (String × Nat)) (c2 : Cfg) :
    Event.writeConfig c2 ∉ (processCategory env base root entry).1 := by
  by_cases hw : env.dirOK (osPathJoin root (sanitizeS entry.1)) = true
  · have h := processChallenges_no_writeConfig env base (osPathJoin root (sanitizeS entry.1))
      c2 entry.2
    rcases hps : processChallenges env base (osPathJoin root (sanitizeS entry.1)) entry.2
      with ⟨evs, r⟩
    have hb : Event.writeConfig c2 ∉ evs := by
      rw [hps] at h
      exact h
    simp [processCategory, hw, hps, hb]
  · have hw2 : env.dirOK (osPathJoin root (sanitizeS entry.1)) = false := Bool.eq_false_iff.mpr hw
    simp [processCategory, hw2]

theorem create_dirs_no_writeConfig (env : Env) (root base : String) (c2 : Cfg) :
    ∀ cats : List (String × List (String × Nat)),
      Event.writeConfig c2 ∉ (create_challenge_directories env root base cats).1
  | [] => by simp [create_challenge_directories]
  | entry :: rest => by
    have h1 := processCategory_no_writeConfig env base root entry c2
    have h2 := create_dirs_no_writeConfig env root base c2 rest
    rcases hpc : processCategory env base root entry with ⟨evs, r⟩
    have h1b : Event.writeConfig c2 ∉ evs := by
      rw [hpc] at h1
      exact h1
    cases r with
    | error e => simp [create_challenge_directories, hpc, h1b]
    | ok a =>
      rcases hrest : create_challenge_directories env root base rest with ⟨evs2, r2⟩
      have h2b : Event.writeConfig c2 ∉ evs2 := by
        rw [hrest] at h2
        exact h2
      simp [create_challenge_directories, hpc, hrest, h1b, h2b]

/-- C6 counterexample: with a valid sidecar and an empty challenge
list, the run succeeds (exit status 0) yet performs no events at all —
in particular the sidecar is NOT patched with a `last_sync`
timestamp. -/
theorem c6_no_patch_cex : mainResume envC6no "root" = (0, []) := rfl

/-- C6 (amended): in resume mode with a valid sidecar, a run that exits
0 after fetching a non-empty challenge list rewrites the sidecar with
`last_sync` set and `updated_at` bumped to the current timestamp
exactly when the sidecar file can be rewritten: a failed rewrite is
caught inside `update_config` and logged, its `False` return is
discarded, and the run still exits 0 with no config write anywhere in
its trace; the benign "no challenges found" outcome returns before
`update_config` and also exits 0 WITHOUT patching the sidecar. -/
theorem c6_resume_sync_patch (env : Env) (dir u : String) (c : Cfg)
    (hc : env.configFile = some (.ok c)) (hp : c.platform = some "CTFd")
    (hu : c.url = some u) :
    (∀ s l, fetch_challenges env.http = .ok (s :: l) → env.configWritable = true →
        (mainResume env dir).1 = 0 →
        Event.writeConfig { c with last_sync := some env.now, updated_at := some env.now }
          ∈ (mainResume env dir).2)
      ∧ (∀ s l, fetch_challenges env.http = .ok (s :: l) → env.configWritable = false →
          (mainResume env dir).1 = 0 →
          ∀ c2, Event.writeConfig c2 ∉ (mainResume env dir).2)
      ∧ (fetch_challenges env.http = .ok [] → mainResume env dir = (0, [])) := by
  have hload : load_config env = ([], some c) := by
    unfold load_config
    rw [hc]
    simp [hp]
  refine ⟨?_, ?_, ?_⟩
  · intro s l hf hw h0
    rcases hmat : create_challenge_directories env dir u
        (organize_challenges_by_category (s :: l)) with ⟨evs2, r⟩
    cases r with
    | error e =>
      have hrun : run_from_config env dir = (evs2, .error e) := by
        simp only [run_from_config, hload, hu, hf, hmat]
        simp
      have h1 : (mainResume env dir).1 = 1 := by
        unfold mainResume
        rw [hrun]
      exact absurd (h1.symm.trans h0) one_ne_zero
    | ok a =>
      have hupd : update_config env = ([.writeConfig { c with last_sync := some env.now, updated_at := some env.now }], true) := by
        unfold update_config
        rw [hc]
        simp [hw]
      have hrun : run_from_config env dir = (evs2 ++ [.writeConfig { c with last_sync := some env.now, updated_at := some env.now }], .ok ()) := by
        simp only [run_from_config, hload, hu, hf, hmat, hupd]
        simp
      have hm : mainResume env dir = (0, evs2 ++ [.writeConfig { c with last_sync := some env.now, updated_at := some env.now }]) := by
        unfold mainResume
        rw [hrun]
      rw [hm]
      exact List.mem_append_right _ (List.mem_singleton.mpr rfl)
  · intro s l hf hw h0
    rcases hmat : create_challenge_directories env dir u
        (organize_challenges_by_category (s :: l)) with ⟨evs2, r⟩
    cases r with
    | error e =>
      have hrun : run_from_config env dir = (evs2, .error e) := by
        simp only [run_from_config, hload, hu, hf, hmat]
        simp
      have h1 : (mainResume env dir).1 = 1 := by
        unfold mainResume
        rw [hrun]
      exact absurd (h1.symm.trans h0) one_ne_zero
    | ok a =>
      have hupd : update_config env = ([.warnConfig], false) := by
        unfold update_config
        rw [hc]
        simp [hw]
      have hrun : run_from_config env dir = (evs2 ++ [.warnConfig], .ok ()) := by
        simp only [run_from_config, hload, hu, hf, hmat, hupd]
        simp
      have hm : mainResume env dir = (0, evs2 ++ [.warnConfig]) := by
        unfold mainResume
        rw [hrun]
      rw [hm]
      intro c2 hmem
      rcases List.mem_append.mp hmem with h1 | h2
      · have hnone := create_dirs_no_writeConfig env dir u c2
          (organize_challenges_by_category (s :: l))
        rw [hmat] at hnone
        exact hnone h1
      · rcases List.mem_singleton.mp h2 with heq
        exact Event.noConfusion heq
  · intro hf
    have hrun : run_from_config env dir = ([], .ok ()) := by
      simp only [run_from_config, hload, hu, hf]
    unfold mainResume
    rw [hrun]

/-- C6 witness: the amended theorem applied to a concrete successful
resume run with a writable sidecar (the patch event is present) and to
the same run with an unwritable sidecar (exit 0, no patch event). -/
theorem c6_resume_sync_patch_witness :
    envC6ok.configFile = some (.ok cfgOK)
      ∧ cfgOK.platform = some "CTFd"
      ∧ cfgOK.url = some "https://ctf.test"
      ∧ fetch_challenges envC6ok.http = .ok [summaryBabyRE]
      ∧ envC6ok.configWritable = true
      ∧ (mainResume envC6ok "root").1 = 0
      ∧ Event.writeConfig { cfgOK with last_sync := some envC6ok.now, updated_at := some envC6ok.now } ∈ (mainResume envC6ok "root").2
      ∧ envC6rw.configWritable = false
      ∧ fetch_challenges envC6rw.http = .ok [summaryBabyRE]
      ∧ (mainResume envC6rw "root").1 = 0
      ∧ Event.writeConfig { cfgOK with last_sync := some envC6rw.now, updated_at := some envC6rw.now } ∉ (mainResume envC6rw "root").2 :=
  ⟨rfl, rfl, rfl, rfl, rfl, rfl,
    (c6_resume_sync_patch envC6ok "root" "https://ctf.test" cfgOK rfl rfl rfl).1
      summaryBabyRE [] rfl rfl rfl,
    rfl, rfl, rfl,
    (c6_resume_sync_patch envC6rw "root" "https://ctf.test" cfgOK rfl rfl rfl).2.1
      summaryBabyRE [] rfl rfl rfl
      { cfgOK with last_sync := some envC6rw.now, updated_at := some envC6rw.now }⟩

/-- C7 counterexample: a 304 response is not a 2xx status, yet
`fetch_challenges` returns the body's `data` field instead of failing
(`raise_for_status` only raises for 4xx/5xx). -/
theorem c7_non2xx_cex :
    fetch_challenges (.ok (304, ⟨some [summaryBabyRE]⟩)) = .ok [summaryBabyRE]
      ∧ ¬(200 ≤ 304 ∧ 304 < 300) :=
  ⟨rfl, by decide⟩

/-- C7 (amended): `fetch_challenges` wraps a transport error in
`Failed to fetch challenges: {cause}`; it fails exactly on HTTP status
400–599 (other non-2xx statuses such as 1xx/3xx are accepted); on
acceptance it returns the body's `data` field, or `[]` when absent. -/
theorem c7_fetch_challenges_spec (e : String) (s : Nat) (body : RespBody) :
    fetch_challenges (.error e) = .error ("Failed to fetch challenges: " ++ e)
      ∧ (400 ≤ s → s < 600 →
          fetch_challenges (.ok (s, body))
            = .error ("Failed to fetch challenges: "
                ++ (if s < 500 then toString s ++ " Client Error"
                    else toString s ++ " Server Error")))
      ∧ (s < 400 ∨ 600 ≤ s → fetch_challenges (.ok (s, body)) = .ok (body.data.getD [])) := by
  refine ⟨rfl, ?_, ?_⟩
  · intro h4 h6
    simp only [fetch_challenges, raise_for_status]
    by_cases h5 : s < 500
    · rw [if_pos (show 400 ≤ s ∧ s < 500 from ⟨h4, h5⟩), if_pos h5]
    · rw [if_neg (show ¬(400 ≤ s ∧ s < 500) from fun hh => h5 hh.2),
        if_pos (show 500 ≤ s ∧ s < 600 from ⟨Nat.le_of_not_lt h5, h6⟩), if_neg h5]
  · intro h
    simp only [fetch_challenges, raise_for_status]
    rcases h with h | h
    · rw [if_neg (show ¬(400 ≤ s ∧ s < 500) from fun hh => absurd h (Nat.not_lt.mpr hh.1)),
        if_neg (show ¬(500 ≤ s ∧ s < 600) from fun hh => absurd h (Nat.not_lt.mpr (le_trans (by decide) hh.1)))]
    · have h5 : ¬s < 500 := Nat.not_lt.mpr (le_trans (by decide) h)
      rw [if_neg (show ¬(400 ≤ s ∧ s < 500) from fun hh => h5 hh.2),
        if_neg (show ¬(500 ≤ s ∧ s < 600) from fun hh => absurd hh.2 (Nat.not_lt.mpr h))]

/-- C7 witness: the amended theorem evaluated at a transport error, a
404 response, and a 200 response with no `data` field. -/
theorem c7_fetch_challenges_witness :
    fetch_challenges (.error "boom") = .error "Failed to fetch challenges: boom"
      ∧ (400 ≤ 404 ∧ 404 < 600)
      ∧ fetch_challenges (.ok (404, ⟨none⟩))
          = .error ("Failed to fetch challenges: "
              ++ (if 404 < 500 then toString 404 ++ " Client Error"
                  else toString 404 ++ " Server Error"))
      ∧ fetch_challenges (.ok (200, ⟨none⟩)) = .ok ((⟨none⟩ : RespBody).data.getD []) :=
  ⟨(c7_fetch_challenges_spec "boom" 0 ⟨none⟩).1, ⟨by decide, by decide⟩,
    (c7_fetch_challenges_spec "x" 404 ⟨none⟩).2.1 (by decide) (by decide),
    (c7_fetch_challenges_spec "x" 200 ⟨none⟩).2.2 (Or.inl (by decide))⟩

/-- C8 counterexample: `httpfake/a.zip` is a relative URL (it has no
scheme), but because it starts with the four characters `http` the code
passes it to the request unresolved, differing from its resolution
against the base URL. -/
theorem c8_relative_http_prefix_cex :
    hasScheme "httpfake/a.zip" = false
      ∧ resolveFileUrl "https://ctf.test" "httpfake/a.zip" = "httpfake/a.zip"
      ∧ pyUrljoin "https://ctf.test" "httpfake/a.zip" = "https://ctf.test/httpfake/a.zip"
      ∧ resolveFileUrl "https://ctf.test" "httpfake/a.zip"
          ≠ pyUrljoin "https://ctf.test" "httpfake/a.zip" := by
  refine ⟨by decide, by decide, by decide, by decide⟩

/-- C8 (amended): for each attachment URL, the requested URL is the
original resolved with `urljoin` against the base exactly when it does
not start with `http` (URLs starting with `http` pass through, even
relative ones), and the destination name on disk is the basename of the
requested URL truncated at the first `?`; one event per URL, in
order. -/
theorem c8_download_resolution (env : Env) (base dir : String) (i : Nat) (d : Detail)
    (url0 : String) (rest : List String)
    (hd : env.detailOf i = .ok (some d)) (hf : d.files = some (url0 :: rest))
    (hw : env.dirOK dir = true) :
    download_challenge_files env base i dir
      = (.ensureDir dir
          :: (url0 :: rest).map (fun url =>
              if env.downloadOK (resolveFileUrl base url) = true then
                Event.download (osPathJoin dir (pyBasename (pySplitQ (resolveFileUrl base url))))
              else Event.warnDownload (resolveFileUrl base url)),
        .ok ((url0 :: rest).any fun url => env.downloadOK (resolveFileUrl base url)))
      ∧ ∀ u : String, strStartsWith u "http" = false → resolveFileUrl base u = pyUrljoin base u := by
  constructor
  · have hloop := downloadLoop_spec env base dir (url0 :: rest)
    simp [download_challenge_files, hd, hf, hw, hloop, isEmpty_map, not_isEmpty_filter_eq_any]
  · intro u hu
    unfold resolveFileUrl
    rw [hu, if_neg Bool.false_ne_true]

/-- C8 witness: the amended theorem applied to a detail with one
relative and one absolute-path attachment URL. -/
theorem c8_download_resolution_witness :
    envC8.detailOf 1 = .ok (some detailFiles)
      ∧ detailFiles.files = some ["files/a.zip?token=1", "/f/b.bin"]
      ∧ envC8.dirOK "pwn/a" = true
      ∧ download_challenge_files envC8 "https://ctf.test" 1 "pwn/a"
          = ([.ensureDir "pwn/a", .download "pwn/a/a.zip", .download "pwn/a/b.bin"], .ok true) :=
  ⟨rfl, rfl, rfl,
    (c8_download_resolution envC8 "https://ctf.test" "pwn/a" 1 detailFiles
      "files/a.zip?token=1" ["/f/b.bin"] rfl rfl rfl).1⟩

/-- C9: a challenge name consisting only of spaces sanitises to the
empty string; the challenge directory path then denotes the category
directory itself (at most a trailing separator apart), so the README
and any attachment of that challenge land directly in the category
directory. -/
theorem c9_all_space_name (nm catDir fname : String)
    (hn : ∀ ch ∈ nm.data, ch = ' ') (hf : strStartsWith fname "/" = false) :
    sanitizeS nm = ""
      ∧ normDir (osPathJoin catDir (sanitizeS nm)) = normDir catDir
      ∧ osPathJoin (osPathJoin catDir (sanitizeS nm)) fname = osPathJoin catDir fname := by
  have h0 : sanitizeS nm = "" := by
    unfold sanitizeS
    rw [sanitize_name_all_spaces hn]
  refine ⟨h0, ?_, ?_⟩ <;> rw [h0]
  · rcases osPathJoin_empty_cases catDir with h | ⟨h, h1, h2⟩
    · rw [h]
    · rw [h, normDir_append_slash]
  · rcases osPathJoin_empty_cases catDir with h | ⟨h, h1, h2⟩
    · rw [h]
    · rw [h, osPathJoin_slash_cancel catDir fname hf h1 h2]

/-- C9 witness: the theorem applied to the two-space name, the
`Reverse` category directory, and `README.md`. -/
theorem c9_all_space_name_witness :
    (∀ ch ∈ ("  " : String).data, ch = ' ')
      ∧ sanitizeS "  " = ""
      ∧ osPathJoin (osPathJoin "Reverse" (sanitizeS "  ")) "README.md"
          = osPathJoin "Reverse" "README.md" :=
  ⟨by decide, (c9_all_space_name "  " "Reverse" "README.md" (by decide) (by decide)).1,
    (c9_all_space_name "  " "Reverse" "README.md" (by decide) (by decide)).2.2⟩

/-- C10: when the sidecar cannot be written, `create_config` merely
logs a warning and returns `none`, and `run_with_new_config` still
proceeds with the same fetch-categorize-materialize continuation and
the same outcome. -/
theorem c10_config_write_failure_nonfatal (env : Env) (base dir : String)
    (hw : env.configWritable = false) (hd : env.dirOK dir = true) :
    create_config env base = ([.warnConfig], none)
      ∧ run_with_new_config env base dir
          = (.ensureDir dir :: .warnConfig :: (fetchAndMaterialize env dir base).1,
            (fetchAndMaterialize env dir base).2) := by
  have h1 : create_config env base = ([.warnConfig], none) := by
    simp [create_config, hw]
  refine ⟨h1, ?_⟩
  rcases hfm : fetchAndMaterialize env dir base with ⟨evs2, r⟩
  simp [run_with_new_config, hd, h1, hfm]

/-- C10 witness: the theorem applied to the unwritable-sidecar
environment; the run still materializes the worked example. -/
theorem c10_config_write_failure_witness :
    envC10.configWritable = false
      ∧ envC10.dirOK "root" = true
      ∧ run_with_new_config envC10 "https://ctf.test" "root"
          = (.ensureDir "root" :: .warnConfig
              :: (fetchAndMaterialize envC10 "root" "https://ctf.test").1,
            (fetchAndMaterialize envC10 "root" "https://ctf.test").2) :=
  ⟨rfl, rfl,
    (c10_config_write_failure_nonfatal envC10 "https://ctf.test" "root" rfl rfl).2⟩

end Ctfd
